import Mathlib

/-!
Verification of the hearing question/opinion dataset builder
(`create_dataset.py`): a shallow embedding of its record model and of the
functions `categorize_opinion`, `create_dataframe`, `fisher_test` and
`load_json_files`, followed by theorems about them.

Conventions of the embedding:
* pandas DataFrames become Lean lists of structure values, preserving record
  order (the script relies on positional `iloc[0]` lookups);
* operations that can raise a Python exception (`.iloc[0]` on an empty
  selection, list indexing `[0]` on an empty list) return `Option`, with
  `none` standing for the propagated exception;
* Python `set` values are modelled as deduplicated lists; iteration order of
  a Python set is unspecified, so every theorem proved about participant
  rows is order-independent (membership and counts only);
* machine-level concerns (JSON parsing, printing) stay outside the model,
  matching the spec's scope, which treats file loading and output
  persistence as external collaborators.
-/

/-- True when the first list is an initial segment of the second. -/
def startsWithChars : List Char → List Char → Bool
  | [], _ => true
  | _ :: _, [] => false
  | c :: cs, d :: ds => c == d && startsWithChars cs ds

/-- True when the first list occurs contiguously inside the second. -/
def containsChars (pat : List Char) : List Char → Bool
  | [] => startsWithChars pat []
  | s@(_ :: rest) => startsWithChars pat s || containsChars pat rest

/-- Models `re.findall(pat, text, re.I)` being non-empty for a literal
alphabetic pattern `pat`: a case-insensitive substring test, realised by
upper-casing both character sequences. -/
def findCI (pat text : String) : Bool :=
  containsChars (pat.toList.map Char.toUpper) (text.toList.map Char.toUpper)

/-- From `create_dataset.py` lines 7-25: categorize opinion types based on
their title text, by case-insensitive substring tests in a fixed order. -/
def categorize_opinion (title_text : String) : String :=
  if findCI "PARTLY" title_text then "PARTLY"
  else if findCI "DISSENTING" title_text then "DISSENTING"
  else if findCI "CONCURRING" title_text then "CONCURRING"
  else if findCI "OPINION" title_text then "OPINION"
  else "UNKNOWN"

/-- The categorizer exactly as the spec words it (section 4.3): the label of
the first pattern in the fixed priority list whose text occurs
case-insensitively in the title, and `"UNKNOWN"` when none does.  Stated
separately from `categorize_opinion` so their agreement is a theorem. -/
def specCategorizeOpinion (s : String) : String :=
  (List.find? (fun pat => findCI pat s)
    ["PARTLY", "DISSENTING", "CONCURRING", "OPINION"]).getD "UNKNOWN"

/-- C2: `categorize_opinion` performs case-insensitive substring matching in
the fixed priority order PARTLY, DISSENTING, CONCURRING, OPINION with first
match winning and `"UNKNOWN"` when no pattern occurs (agreement with the
spec-side categorizer), and a title containing both "PARTLY" and
"DISSENTING" is classified "PARTLY"; case-insensitivity and the UNKNOWN
fallback are also witnessed on concrete titles. -/
theorem categorize_opinion_priority_order :
    (∀ s, categorize_opinion s = specCategorizeOpinion s)
    ∧ categorize_opinion "PARTLY DISSENTING OPINION" = "PARTLY"
    ∧ categorize_opinion "dissenting opinion" = "DISSENTING"
    ∧ categorize_opinion "STATEMENT OF JUDGE X" = "UNKNOWN" := by
  refine ⟨fun s => ?_, by decide, by decide, by decide⟩
  unfold categorize_opinion specCategorizeOpinion
  cases h1 : findCI "PARTLY" s <;>
    cases h2 : findCI "DISSENTING" s <;>
      cases h3 : findCI "CONCURRING" s <;>
        cases h4 : findCI "OPINION" s <;>
          simp [List.find?, h1, h2, h3, h4]

/-! ## Record model

One structure per input record set, with the fields the script reads.
`webcast_id` is kept as a string throughout (the loader forces `dtype=str`).
-/

/-- A calendar timestamp as produced by `pd.to_datetime(x, unit="ms")`; the
conversion is injective, so the model keeps the millisecond count. -/
structure DateTime where
  ms : Nat
deriving DecidableEq, Repr

/-- One row of the selected-webcasts set: `{webcast_id}`. -/
structure WebcastRow where
  webcast_id : String
deriving DecidableEq, Repr

/-- One row of the questions set: `{webcast_id, name, text, lang}`. -/
structure QuestionRow where
  webcast_id : String
  name : String
  text : String
  lang : String
deriving DecidableEq, Repr

/-- One row of the announced-judges set as parsed from JSON:
`{webcast_id, judges}` where `judges` maps a position key to a judge name
(a Python dict, modelled as an association list in insertion order). -/
structure AnnouncedRaw where
  webcast_id : String
  judges : List (String × String)
deriving DecidableEq, Repr

/-- An announced-judges row after the loader adds the `listed` column:
the judge names joined by commas. -/
structure AnnouncedRow where
  webcast_id : String
  judges : List (String × String)
  listed : String
deriving DecidableEq, Repr

/-- One row of the reported-judges set as parsed from JSON:
`{webcast_id, listed, hearing_date}` with the date still in epoch
milliseconds. -/
structure ReportedRaw where
  webcast_id : String
  listed : String
  hearing_date : Nat
deriving DecidableEq, Repr

/-- A reported-judges row after the loader converts the date. -/
structure ReportedRow where
  webcast_id : String
  listed : String
  hearing_date : DateTime
deriving DecidableEq, Repr

/-- One row of the opinions set as parsed from JSON: `{webcast_id, case_id,
hearing_date, opinions}` where `opinions` maps a judge name to the ordered
list of opinion texts that judge authored (a Python dict with unique keys,
modelled as an association list in insertion order). -/
structure OpinionRaw where
  webcast_id : String
  case_id : String
  hearing_date : Nat
  opinions : List (String × List String)
deriving DecidableEq, Repr

/-- An opinions row after the loader converts the date. -/
structure OpinionRow where
  webcast_id : String
  case_id : String
  hearing_date : DateTime
  opinions : List (String × List String)
deriving DecidableEq, Repr

/-- A value of the output `opinion` column.  The script stores the Python
string `""` for a participant without an opinion and the *list* of opinion
texts for one with an opinion, so the column is heterogeneous; the model
keeps the two shapes apart. -/
inductive OpinionCell where
  | str : String → OpinionCell
  | list : List String → OpinionCell
deriving DecidableEq, Repr

/-- One output row of `create_dataframe`, in the column order of
`create_dataset.py` lines 48-58. -/
structure Entry where
  webcast_id : String
  name : String
  has_question : Bool
  has_opinion : Bool
  language : String
  question : String
  case_id : String
  opinion : OpinionCell
  opinion_type : String
deriving DecidableEq, Repr

/-! ## The join (`create_dataframe`, lines 28-93) -/

/-- The body of the inner participant loop (lines 76-89) for one participant
`p` of one hearing: `qrows` is the hearing's question selection and `orow`
its opinions row.
* `q` models `p in questions.values`: numpy membership, which compares `p`
  against every cell of the `name`, `text` and `lang` columns;
* `o` models `p in opinions["opinions"].keys()`;
* the `question`/`language` extraction models the two
  `questions.loc[questions["name"] == p, ...].iloc[0]` lookups, which raise
  `IndexError` (here `none`) when no question row has `name = p`;
* the opinion extraction models `opinions["opinions"][p]` (the whole list is
  stored) and `categorize_opinion(opinions["opinions"][p][0])`, where `[0]`
  raises (here `none`) on an empty list. -/
def mkEntry (w_id : String) (qrows : List QuestionRow) (orow : OpinionRow)
    (p : String) : Option Entry :=
  let q := qrows.any fun r => r.name == p || r.text == p || r.lang == p
  let o := orow.opinions.any fun kv => kv.1 == p
  let questionLang : Option (String × String) :=
    if q then ((qrows.filter fun r => r.name == p).head?).map fun r => (r.text, r.lang)
    else some ("", "en")
  let opinionData : Option (OpinionCell × String) :=
    if o then
      (List.lookup p orow.opinions).bind fun vals =>
        (vals.head?).map fun t => (OpinionCell.list vals, categorize_opinion t)
    else some (OpinionCell.str "", "")
  match questionLang, opinionData with
  | some (qt, lg), some (op, oty) =>
      some { webcast_id := w_id, name := p, has_question := q, has_opinion := o,
             language := lg, question := qt, case_id := orow.case_id,
             opinion := op, opinion_type := oty }
  | _, _ => none

/-- The participant loop of one hearing: appends one entry per participant,
aborting (as a propagated exception would) when any entry fails. -/
def buildEntries (w_id : String) (qrows : List QuestionRow) (orow : OpinionRow) :
    List String → Option (List Entry)
  | [] => some []
  | p :: ps =>
    match mkEntry w_id qrows orow p, buildEntries w_id qrows orow ps with
    | some e, some es => some (e :: es)
    | _, _ => none

/-- Helper for `splitOnComma`, working on the character list. -/
def splitCommaChars : List Char → List (List Char)
  | [] => [[]]
  | c :: cs =>
    if c == ',' then [] :: splitCommaChars cs
    else
      match splitCommaChars cs with
      | r :: rs => (c :: r) :: rs
      | [] => [[c]]

/-- Models Python `s.split(",")`: the pieces of `s` between commas, empty
pieces preserved, and `[""]` for the empty string. -/
def splitOnComma (s : String) : List String :=
  (splitCommaChars s.toList).map fun cs => String.mk cs

/-- One iteration of the webcast loop (lines 59-89): select the first
announced and reported roster rows and the first opinions row for `w_id`
(`.iloc[0]`, raising — `none` — when the selection is empty), split the two
comma-joined rosters into name sets, intersect them, select the hearing's
question rows, and run the participant loop.

Python `set` iteration order is unspecified; the model fixes first-occurrence
order of the announced roster, and only order-independent facts are proved
about the resulting rows. -/
def processHearing (df_announced : List AnnouncedRow) (df_reported : List ReportedRow)
    (df_questions : List QuestionRow) (df_opinions : List OpinionRow)
    (w_id : String) : Option (List Entry) :=
  ((df_announced.filter fun r => r.webcast_id == w_id).head?).bind fun announced =>
  ((df_reported.filter fun r => r.webcast_id == w_id).head?).bind fun reported =>
  ((df_opinions.filter fun r => r.webcast_id == w_id).head?).bind fun orow =>
    let set_announced := (splitOnComma announced.listed).dedup
    let set_reported := splitOnComma reported.listed
    let participants := set_announced.filter fun p => set_reported.contains p
    let questions := df_questions.filter fun r => r.webcast_id == w_id
    buildEntries w_id questions orow participants

/-- From `create_dataset.py` lines 28-93: the dataset of participants with
their questions and opinions, one block of rows per selected webcast in
input order.  `none` models an exception propagating out of the loop: the
whole run aborts and no dataframe is produced. -/
def create_dataframe (df_webcasts : List WebcastRow) (df_announced : List AnnouncedRow)
    (df_reported : List ReportedRow) (df_questions : List QuestionRow)
    (df_opinions : List OpinionRow) : Option (List Entry) :=
  match df_webcasts with
  | [] => some []
  | w :: ws =>
    (processHearing df_announced df_reported df_questions df_opinions
        w.webcast_id).bind fun es =>
    (create_dataframe ws df_announced df_reported df_questions df_opinions).bind
        fun rest => some (es ++ rest)

/-! ## The loader (`load_json_files`, lines 113-164)

JSON parsing itself is an external collaborator in the spec's scope; the
model starts from the five parsed record sets and performs the in-memory
normalisation and filtering the function applies before returning:
the comma-joined `listed` column for the announced set, the millisecond
date conversion for the reported and opinions sets, and the restriction of
the opinions set to the selected webcasts. -/
def load_json_files (webcasts : List WebcastRow) (questions : List QuestionRow)
    (announced : List AnnouncedRaw) (reported : List ReportedRaw)
    (opinions : List OpinionRaw) :
    List WebcastRow × List AnnouncedRow × List ReportedRow × List QuestionRow ×
      List OpinionRow :=
  let announcedListed := announced.map fun a =>
    { webcast_id := a.webcast_id, judges := a.judges,
      listed := String.intercalate "," (a.judges.map fun kv => kv.2) : AnnouncedRow }
  let reportedDated := reported.map fun r =>
    { webcast_id := r.webcast_id, listed := r.listed,
      hearing_date := DateTime.mk r.hearing_date : ReportedRow }
  let opinionsDated := opinions.map fun o =>
    { webcast_id := o.webcast_id, case_id := o.case_id,
      hearing_date := DateTime.mk o.hearing_date, opinions := o.opinions : OpinionRow }
  let opinionsSelected := opinionsDated.filter fun o =>
    (webcasts.map fun w => w.webcast_id).contains o.webcast_id
  (webcasts, announcedListed, reportedDated, questions, opinionsSelected)

/-! ## The association test (`fisher_test`, lines 96-110) -/

/-- The count of output rows with the given `has_question` / `has_opinion`
values: one cell of the contingency table. -/
def cellCount (rows : List Entry) (qv ov : Bool) : Nat :=
  (rows.filter fun e => e.has_question == qv && e.has_opinion == ov).length

/-- The boolean values a column actually takes, in sorted order: the
categories `pd.crosstab` keeps.  A value observed in no row yields no
row/column of the crosstab (it is dropped, not kept as zeros). -/
def observedVals (vals : List Bool) : List Bool :=
  (if vals.contains false then [false] else []) ++
    (if vals.contains true then [true] else [])

/-- From `create_dataset.py` lines 96-110: `pd.crosstab` on
`has_question` × `has_opinion` followed by `scipy.stats.fisher_exact`.
`fisher_exact` validates its input and raises `ValueError` unless the table
has shape (2, 2), so the call succeeds exactly when both columns take both
boolean values; on success the model returns the four cell counts
(ff, ft, tf, tt) handed to the test, and the numeric odds-ratio/p-value
computation inside scipy stays outside the embedding.  `none` models the
raised `ValueError`. -/
def fisher_test (rows : List Entry) : Option (Nat × Nat × Nat × Nat) :=
  let qobs := observedVals (rows.map fun e => e.has_question)
  let oobs := observedVals (rows.map fun e => e.has_opinion)
  if qobs.length == 2 && oobs.length == 2 then
    some (cellCount rows false false, cellCount rows false true,
          cellCount rows true false, cellCount rows true true)
  else none

/-! ## Concrete data

The end-to-end scenario of spec section 8.7, used by witnesses, plus the
inputs exhibiting the behaviours of the corrected claims. -/

def sampleWebcasts : List WebcastRow := [{ webcast_id := "H1" }]

def sampleAnnounced : List AnnouncedRow :=
  [{ webcast_id := "H1", judges := [("1", "A"), ("2", "B")], listed := "A,B" }]

def sampleReported : List ReportedRow :=
  [{ webcast_id := "H1", listed := "A,B,C", hearing_date := ⟨0⟩ }]

def sampleQuestions : List QuestionRow :=
  [{ webcast_id := "H1", name := "A", text := "Why?", lang := "fr" }]

def sampleOpinions : List OpinionRow :=
  [{ webcast_id := "H1", case_id := "C1", hearing_date := ⟨0⟩,
     opinions := [("B", ["DISSENTING OPINION..."])] }]

/-- The output row the scenario produces for participant "A". -/
def sampleRowA : Entry :=
  { webcast_id := "H1", name := "A", has_question := true, has_opinion := false,
    language := "fr", question := "Why?", case_id := "C1",
    opinion := OpinionCell.str "", opinion_type := "" }

/-- The output row the scenario produces for participant "B": note the
`opinion` cell holds the whole list of opinion texts. -/
def sampleRowB : Entry :=
  { webcast_id := "H1", name := "B", has_question := false, has_opinion := true,
    language := "en", question := "", case_id := "C1",
    opinion := OpinionCell.list ["DISSENTING OPINION..."],
    opinion_type := "DISSENTING" }

/-- The end-to-end scenario of spec section 8.7 evaluates to exactly the two
expected participant rows (up to the `opinion` cell holding the list, see the
corrected claim about the opinion field). -/
theorem scenario_end_to_end :
    create_dataframe sampleWebcasts sampleAnnounced sampleReported
      sampleQuestions sampleOpinions = some [sampleRowA, sampleRowB] := by
  decide

/-! ## Helper lemmas -/

/-- Everything a successful `mkEntry` says about the produced row's fields. -/
theorem mkEntry_fields {w : String} {qrows : List QuestionRow} {orow : OpinionRow}
    {p : String} {e : Entry} (h : mkEntry w qrows orow p = some e) :
    e.webcast_id = w ∧ e.name = p
    ∧ e.has_question = (qrows.any fun r => r.name == p || r.text == p || r.lang == p)
    ∧ e.has_opinion = (orow.opinions.any fun kv => kv.1 == p)
    ∧ e.case_id = orow.case_id
    ∧ (e.has_question = true →
        ∃ qr, (qrows.filter fun r => r.name == p).head? = some qr
          ∧ e.question = qr.text ∧ e.language = qr.lang)
    ∧ (e.has_question = false → e.question = "" ∧ e.language = "en")
    ∧ (e.has_opinion = true →
        ∃ vals t, List.lookup p orow.opinions = some vals ∧ vals.head? = some t
          ∧ e.opinion = OpinionCell.list vals
          ∧ e.opinion_type = categorize_opinion t)
    ∧ (e.has_opinion = false →
        e.opinion = OpinionCell.str "" ∧ e.opinion_type = "") := by
  simp only [mkEntry] at h
  cases hq : qrows.any fun r => r.name == p || r.text == p || r.lang == p <;>
    cases ho : orow.opinions.any fun kv => kv.1 == p <;>
      rw [hq, ho] at h <;> simp only [if_true, if_false, Bool.false_eq_true,
        Bool.true_eq_false, ite_true, ite_false] at h
  · injection h with h
    subst h
    simp
  · cases hl : List.lookup p orow.opinions with
    | none => rw [hl] at h; cases h
    | some vals =>
      rw [hl] at h
      simp only [Option.some_bind] at h
      cases hh : vals.head? with
      | none => rw [hh] at h; cases h
      | some t =>
        rw [hh] at h
        injection h with h
        subst h
        exact ⟨rfl, rfl, rfl, rfl, rfl, by simp, fun _ => ⟨rfl, rfl⟩,
          fun _ => ⟨vals, t, rfl, hh, rfl, rfl⟩, by simp⟩
  · cases hhead : (qrows.filter fun r => r.name == p).head? with
    | none => rw [hhead] at h; cases h
    | some qr =>
      rw [hhead] at h
      injection h with h
      subst h
      exact ⟨rfl, rfl, rfl, rfl, rfl, fun _ => ⟨qr, rfl, rfl, rfl⟩, by simp,
        by simp, fun _ => ⟨rfl, rfl⟩⟩
  · cases hhead : (qrows.filter fun r => r.name == p).head? with
    | none => rw [hhead] at h; cases h
    | some qr =>
      rw [hhead] at h
      cases hl : List.lookup p orow.opinions with
      | none => rw [hl] at h; cases h
      | some vals =>
        rw [hl] at h
        simp only [Option.some_bind] at h
        cases hh : vals.head? with
        | none => rw [hh] at h; cases h
        | some t =>
          rw [hh] at h
          injection h with h
          subst h
          exact ⟨rfl, rfl, rfl, rfl, rfl, fun _ => ⟨qr, rfl, rfl, rfl⟩, by simp,
            fun _ => ⟨vals, t, rfl, hh, rfl, rfl⟩, by simp⟩

/-- A successful participant loop produces rows whose names are exactly the
participant list, in order. -/
theorem buildEntries_names {w : String} {qrows : List QuestionRow} {orow : OpinionRow} :
    ∀ {ps : List String} {rows : List Entry},
      buildEntries w qrows orow ps = some rows →
      rows.map (fun e => e.name) = ps := by
  intro ps
  induction ps with
  | nil =>
    intro rows h
    simp only [buildEntries] at h
    cases h
    rfl
  | cons p ps ih =>
    intro rows h
    simp only [buildEntries] at h
    cases hm : mkEntry w qrows orow p with
    | none => rw [hm] at h; cases h
    | some e =>
      rw [hm] at h
      cases hb : buildEntries w qrows orow ps with
      | none => rw [hb] at h; cases h
      | some es =>
        rw [hb] at h
        injection h with h
        subst h
        simp only [List.map_cons]
        rw [(mkEntry_fields hm).2.1, ih hb]

/-- Every row of a successful participant loop comes from `mkEntry` on its
own name, a member of the participant list. -/
theorem buildEntries_mem {w : String} {qrows : List QuestionRow} {orow : OpinionRow} :
    ∀ {ps : List String} {rows : List Entry},
      buildEntries w qrows orow ps = some rows →
      ∀ {e : Entry}, e ∈ rows →
        e.name ∈ ps ∧ mkEntry w qrows orow e.name = some e := by
  intro ps
  induction ps with
  | nil =>
    intro rows h e he
    simp only [buildEntries] at h
    cases h
    cases he
  | cons p ps ih =>
    intro rows h e he
    simp only [buildEntries] at h
    cases hm : mkEntry w qrows orow p with
    | none => rw [hm] at h; cases h
    | some e0 =>
      rw [hm] at h
      cases hb : buildEntries w qrows orow ps with
      | none => rw [hb] at h; cases h
      | some es =>
        rw [hb] at h
        injection h with h
        subst h
        rcases List.mem_cons.mp he with he | he
        · subst he
          have hn := (mkEntry_fields hm).2.1
          exact ⟨hn ▸ List.mem_cons_self p ps, hn ▸ hm⟩
        · have hih := ih hb he
          exact ⟨List.mem_cons_of_mem _ hih.1, hih.2⟩

/-- Decomposition of a successful hearing iteration: the three first-match
rows exist and the participant loop over the roster intersection produced
the rows. -/
theorem processHearing_parts {anns : List AnnouncedRow} {reps : List ReportedRow}
    {qs : List QuestionRow} {ops : List OpinionRow} {w : String} {rows : List Entry}
    (h : processHearing anns reps qs ops w = some rows) :
    ∃ a rr orow,
      (anns.filter fun r => r.webcast_id == w).head? = some a
      ∧ (reps.filter fun r => r.webcast_id == w).head? = some rr
      ∧ (ops.filter fun r => r.webcast_id == w).head? = some orow
      ∧ buildEntries w (qs.filter fun r => r.webcast_id == w) orow
          (((splitOnComma a.listed).dedup).filter fun p =>
            (splitOnComma rr.listed).contains p) = some rows := by
  unfold processHearing at h
  cases ha : (anns.filter fun r => r.webcast_id == w).head? with
  | none => rw [ha] at h; cases h
  | some a =>
    rw [ha] at h
    simp only [Option.some_bind] at h
    cases hr : (reps.filter fun r => r.webcast_id == w).head? with
    | none => rw [hr] at h; cases h
    | some rr =>
      rw [hr] at h
      simp only [Option.some_bind] at h
      cases ho : (ops.filter fun r => r.webcast_id == w).head? with
      | none => rw [ho] at h; cases h
      | some orow =>
        rw [ho] at h
        simp only [Option.some_bind] at h
        exact ⟨a, rr, orow, rfl, rfl, rfl, h⟩

/-- A hearing iteration fails as soon as one of its three first-match
selections is empty. -/
theorem processHearing_none {anns : List AnnouncedRow} {reps : List ReportedRow}
    {qs : List QuestionRow} {ops : List OpinionRow} {w : String}
    (h : (anns.filter fun r => r.webcast_id == w) = []
      ∨ (reps.filter fun r => r.webcast_id == w) = []
      ∨ (ops.filter fun r => r.webcast_id == w) = []) :
    processHearing anns reps qs ops w = none := by
  unfold processHearing
  rcases h with h | h | h
  · rw [h]
    rfl
  · cases (anns.filter fun r => r.webcast_id == w).head? with
    | none => rfl
    | some a => rw [h]; rfl
  · cases (anns.filter fun r => r.webcast_id == w).head? with
    | none => rfl
    | some a =>
      cases (reps.filter fun r => r.webcast_id == w).head? with
      | none => rfl
      | some rr => rw [h]; rfl

/-- Every row of a successful `create_dataframe` belongs to the successful
hearing iteration of its own `webcast_id`, which is a selected webcast. -/
theorem create_dataframe_mem {anns : List AnnouncedRow} {reps : List ReportedRow}
    {qs : List QuestionRow} {ops : List OpinionRow} :
    ∀ {ws : List WebcastRow} {rows : List Entry},
      create_dataframe ws anns reps qs ops = some rows →
      ∀ {e : Entry}, e ∈ rows →
        (∃ w ∈ ws, w.webcast_id = e.webcast_id)
        ∧ ∃ hrows, processHearing anns reps qs ops e.webcast_id = some hrows
            ∧ e ∈ hrows := by
  intro ws
  induction ws with
  | nil =>
    intro rows h e he
    simp only [create_dataframe] at h
    cases h
    cases he
  | cons w ws ih =>
    intro rows h e he
    simp only [create_dataframe] at h
    cases hp : processHearing anns reps qs ops w.webcast_id with
    | none => rw [hp] at h; cases h
    | some es =>
      rw [hp] at h
      simp only [Option.some_bind] at h
      cases hc : create_dataframe ws anns reps qs ops with
      | none => rw [hc] at h; cases h
      | some rest =>
        rw [hc] at h
        injection h with h
        subst h
        rcases List.mem_append.mp he with he | he
        · obtain ⟨a, rr, orow, _, _, _, hb⟩ := processHearing_parts hp
          have hw : e.webcast_id = w.webcast_id := (mkEntry_fields (buildEntries_mem hb he).2).1
          refine ⟨⟨w, List.mem_cons_self w ws, hw.symm⟩, es, ?_, he⟩
          rw [hw]
          exact hp
        · have hih := ih hc he
          obtain ⟨⟨w', hw', hwid⟩, hrest⟩ := hih
          exact ⟨⟨w', List.mem_cons_of_mem _ hw', hwid⟩, hrest⟩

/-- The run fails whenever one of its hearing iterations fails. -/
theorem create_dataframe_fails {anns : List AnnouncedRow} {reps : List ReportedRow}
    {qs : List QuestionRow} {ops : List OpinionRow} :
    ∀ {ws : List WebcastRow} {w : WebcastRow}, w ∈ ws →
      processHearing anns reps qs ops w.webcast_id = none →
      create_dataframe ws anns reps qs ops = none := by
  intro ws
  induction ws with
  | nil => intro w hw; cases hw
  | cons w0 ws ih =>
    intro w hw hnone
    simp only [create_dataframe]
    rcases List.mem_cons.mp hw with hw | hw
    · subst hw
      rw [hnone]
      rfl
    · rw [ih hw hnone]
      cases processHearing anns reps qs ops w0.webcast_id <;> rfl

/-! ## Claim theorems -/

/-- C1: for every selected hearing (with `a` and `rr` the hearing's first
matching announced and reported roster rows), the rows a successful hearing
iteration emits carry exactly the names in the intersection of the announced
and reported name sets: every row's name is in both sets, every name in both
sets has a row, and the number of rows equals the size of the intersection. -/
theorem hearing_rows_are_roster_intersection (anns : List AnnouncedRow)
    (reps : List ReportedRow) (qs : List QuestionRow) (ops : List OpinionRow)
    (w : String) (rows : List Entry) (a : AnnouncedRow) (rr : ReportedRow)
    (ha : (anns.filter fun r => r.webcast_id == w).head? = some a)
    (hr : (reps.filter fun r => r.webcast_id == w).head? = some rr)
    (h : processHearing anns reps qs ops w = some rows) :
    (∀ e ∈ rows, e.name ∈ splitOnComma a.listed ∧ e.name ∈ splitOnComma rr.listed)
    ∧ (∀ p, p ∈ splitOnComma a.listed → p ∈ splitOnComma rr.listed →
        ∃ e ∈ rows, e.name = p)
    ∧ rows.length
        = ((splitOnComma a.listed).toFinset ∩ (splitOnComma rr.listed).toFinset).card := by
  obtain ⟨a', rr', orow, ha', hr', ho', hb⟩ := processHearing_parts h
  rw [ha] at ha'
  rw [hr] at hr'
  cases ha'
  cases hr'
  have hnames := buildEntries_names hb
  refine ⟨?_, ?_, ?_⟩
  · intro e he
    have : e.name ∈ rows.map fun e => e.name := List.mem_map.mpr ⟨e, he, rfl⟩
    rw [hnames] at this
    have hsplit := List.mem_filter.mp this
    refine ⟨List.mem_dedup.mp hsplit.1, ?_⟩
    have := hsplit.2
    simpa [List.contains, List.elem_iff] using this
  · intro p hpa hpr
    have hp : p ∈ ((splitOnComma a.listed).dedup).filter fun p =>
        (splitOnComma rr.listed).contains p := by
      refine List.mem_filter.mpr ⟨List.mem_dedup.mpr hpa, ?_⟩
      simpa [List.contains, List.elem_iff] using hpr
    rw [← hnames] at hp
    obtain ⟨e, he, hname⟩ := List.mem_map.mp hp
    exact ⟨e, he, hname⟩
  · have hlen : rows.length = (((splitOnComma a.listed).dedup).filter fun p =>
        (splitOnComma rr.listed).contains p).length := by
      rw [← hnames, List.length_map]
    rw [hlen]
    have hnodup : (((splitOnComma a.listed).dedup).filter fun p =>
        (splitOnComma rr.listed).contains p).Nodup :=
      (List.nodup_dedup _).filter _
    have hfin : (((splitOnComma a.listed).dedup).filter fun p =>
        (splitOnComma rr.listed).contains p).toFinset
        = (splitOnComma a.listed).toFinset ∩ (splitOnComma rr.listed).toFinset := by
      ext x
      simp [List.mem_filter, List.mem_dedup, List.contains, List.elem_iff]
    rw [← hfin, List.card_toFinset, hnodup.dedup]

/-- Witness for C1 on the spec's end-to-end scenario: the hearing yields
two rows, the size of {A,B} ∩ {A,B,C}. -/
theorem hearing_rows_roster_intersection_witness :
    ([sampleRowA, sampleRowB] : List Entry).length
      = ((splitOnComma "A,B").toFinset ∩ (splitOnComma "A,B,C").toFinset).card :=
  (hearing_rows_are_roster_intersection sampleAnnounced sampleReported
    sampleQuestions sampleOpinions "H1" [sampleRowA, sampleRowB]
    { webcast_id := "H1", judges := [("1", "A"), ("2", "B")], listed := "A,B" }
    { webcast_id := "H1", listed := "A,B,C", hearing_date := ⟨0⟩ }
    (by decide) (by decide) (by decide)).2.2

/-- C3: in every successful run, a row's `has_question` field is true
exactly when the row's participant appears as a `name` value among the
hearing's question rows; an occurrence of the participant in another field
alone never yields a row with `has_question` true (the run aborts instead,
see the companion safety theorem). -/
theorem has_question_iff_name_match (ws : List WebcastRow) (anns : List AnnouncedRow)
    (reps : List ReportedRow) (qs : List QuestionRow) (ops : List OpinionRow)
    (rows : List Entry) (h : create_dataframe ws anns reps qs ops = some rows)
    (e : Entry) (he : e ∈ rows) :
    e.has_question = true
      ↔ ((qs.filter fun r => r.webcast_id == e.webcast_id).any
          fun r => r.name == e.name) = true := by
  obtain ⟨-, hrows, hp, hin⟩ := create_dataframe_mem h he
  obtain ⟨a, rr, orow, -, -, -, hb⟩ := processHearing_parts hp
  have hf := mkEntry_fields (buildEntries_mem hb hin).2
  constructor
  · intro hq
    obtain ⟨qr, hqr, -, -⟩ := hf.2.2.2.2.2.1 hq
    have hqmem : qr ∈ (qs.filter fun r => r.webcast_id == e.webcast_id).filter
        fun r => r.name == e.name :=
      List.mem_of_mem_head? (Option.mem_def.mpr hqr)
    have := List.mem_filter.mp hqmem
    exact List.any_eq_true.mpr ⟨qr, this.1, this.2⟩
  · intro hany
    obtain ⟨qr, hqmem, hqname⟩ := List.any_eq_true.mp hany
    rw [hf.2.2.1]
    refine List.any_eq_true.mpr ⟨qr, hqmem, ?_⟩
    simp only [hqname, Bool.true_or]

/-- Witness for C3: participant "A" of the scenario asked a question and
appears as a `name` value. -/
theorem has_question_iff_name_match_witness :
    sampleRowA.has_question = true
      ↔ ((sampleQuestions.filter fun r => r.webcast_id == sampleRowA.webcast_id).any
          fun r => r.name == sampleRowA.name) = true :=
  has_question_iff_name_match sampleWebcasts sampleAnnounced sampleReported
    sampleQuestions sampleOpinions [sampleRowA, sampleRowB] (by decide)
    sampleRowA (List.mem_cons_self _ _)

/-- C6: in every successful run, a row with `has_question` true carries the
text and language of the participant's first matching question row in record
order (no deduplication or concatenation), and a row with `has_question`
false carries the empty question and the default language "en". -/
theorem question_fields_from_first_match (ws : List WebcastRow)
    (anns : List AnnouncedRow) (reps : List ReportedRow) (qs : List QuestionRow)
    (ops : List OpinionRow) (rows : List Entry)
    (h : create_dataframe ws anns reps qs ops = some rows)
    (e : Entry) (he : e ∈ rows) :
    (e.has_question = true →
      ∃ qr, ((qs.filter fun r => r.webcast_id == e.webcast_id).filter
          fun r => r.name == e.name).head? = some qr
        ∧ e.question = qr.text ∧ e.language = qr.lang)
    ∧ (e.has_question = false → e.question = "" ∧ e.language = "en") := by
  obtain ⟨-, hrows, hp, hin⟩ := create_dataframe_mem h he
  obtain ⟨a, rr, orow, -, -, -, hb⟩ := processHearing_parts hp
  have hf := mkEntry_fields (buildEntries_mem hb hin).2
  exact ⟨hf.2.2.2.2.2.1, hf.2.2.2.2.2.2.1⟩

/-- Witness for C6 on the scenario: row "A" takes its question text and
language from its first matching question row. -/
theorem question_fields_from_first_match_witness :
    (sampleRowA.has_question = true →
      ∃ qr, ((sampleQuestions.filter fun r => r.webcast_id == sampleRowA.webcast_id).filter
          fun r => r.name == sampleRowA.name).head? = some qr
        ∧ sampleRowA.question = qr.text ∧ sampleRowA.language = qr.lang)
    ∧ (sampleRowA.has_question = false →
        sampleRowA.question = "" ∧ sampleRowA.language = "en") :=
  question_fields_from_first_match sampleWebcasts sampleAnnounced sampleReported
    sampleQuestions sampleOpinions [sampleRowA, sampleRowB] (by decide)
    sampleRowA (List.mem_cons_self _ _)

/-- Counterexample to C4 as stated: in the spec's own end-to-end scenario
the run succeeds, participant "B" has an opinion, yet the `opinion` field is
the whole one-element list of opinion texts, not the first opinion-text
string itself. -/
theorem opinion_field_not_first_string_counterexample :
    create_dataframe sampleWebcasts sampleAnnounced sampleReported
        sampleQuestions sampleOpinions = some [sampleRowA, sampleRowB]
    ∧ sampleRowB.has_opinion = true
    ∧ sampleRowB.opinion ≠ OpinionCell.str "DISSENTING OPINION..."
    ∧ sampleRowB.opinion = OpinionCell.list ["DISSENTING OPINION..."] := by
  decide

/-- C4 as amended: for a participant with `has_opinion` true the `opinion`
field holds the participant's entire opinion-text sequence (the list stored
under the participant's name in the hearing's opinion mapping), not only its
first element, while `opinion_type` is `categorize_opinion` of that
sequence's first element; with `has_opinion` false both fields are the empty
string. -/
theorem opinion_fields_from_author_sequence (ws : List WebcastRow)
    (anns : List AnnouncedRow) (reps : List ReportedRow) (qs : List QuestionRow)
    (ops : List OpinionRow) (rows : List Entry)
    (h : create_dataframe ws anns reps qs ops = some rows)
    (e : Entry) (he : e ∈ rows) :
    (e.has_opinion = true →
      ∃ orow vals t,
        (ops.filter fun r => r.webcast_id == e.webcast_id).head? = some orow
        ∧ List.lookup e.name orow.opinions = some vals
        ∧ vals.head? = some t
        ∧ e.opinion = OpinionCell.list vals
        ∧ e.opinion_type = categorize_opinion t)
    ∧ (e.has_opinion = false →
        e.opinion = OpinionCell.str "" ∧ e.opinion_type = "") := by
  obtain ⟨-, hrows, hp, hin⟩ := create_dataframe_mem h he
  obtain ⟨a, rr, orow, -, -, ho, hb⟩ := processHearing_parts hp
  have hf := mkEntry_fields (buildEntries_mem hb hin).2
  refine ⟨fun hop => ?_, hf.2.2.2.2.2.2.2.2⟩
  obtain ⟨vals, t, hl, hh, hcell, hty⟩ := hf.2.2.2.2.2.2.2.1 hop
  exact ⟨orow, vals, t, ho, hl, hh, hcell, hty⟩

/-- Witness for the amended C4 on the scenario: row "B" stores the whole
sequence and categorizes its first element. -/
theorem opinion_fields_from_author_sequence_witness :
    (sampleRowB.has_opinion = true →
      ∃ orow vals t,
        (sampleOpinions.filter fun r => r.webcast_id == sampleRowB.webcast_id).head?
            = some orow
        ∧ List.lookup sampleRowB.name orow.opinions = some vals
        ∧ vals.head? = some t
        ∧ sampleRowB.opinion = OpinionCell.list vals
        ∧ sampleRowB.opinion_type = categorize_opinion t)
    ∧ (sampleRowB.has_opinion = false →
        sampleRowB.opinion = OpinionCell.str "" ∧ sampleRowB.opinion_type = "") :=
  opinion_fields_from_author_sequence sampleWebcasts sampleAnnounced sampleReported
    sampleQuestions sampleOpinions [sampleRowA, sampleRowB] (by decide)
    sampleRowB (List.mem_cons_of_mem _ (List.mem_cons_self _ _))

/-- Participant rows in which nobody authored an opinion: the `has_opinion`
column is constantly false, so the crosstab has a single column. -/
def degenerateRows : List Entry :=
  [{ webcast_id := "H1", name := "A", has_question := true, has_opinion := false,
     language := "en", question := "q", case_id := "C1",
     opinion := OpinionCell.str "", opinion_type := "" },
   { webcast_id := "H1", name := "B", has_question := false, has_opinion := false,
     language := "en", question := "", case_id := "C1",
     opinion := OpinionCell.str "", opinion_type := "" }]

/-- Counterexample to C5 as stated: on a row set where no participant has an
opinion the contingency table has a zero column, `pd.crosstab` drops the
unobserved category, the table handed to `fisher_exact` is not 2×2, and the
test raises (`none`) instead of executing and reporting degenerate values. -/
theorem fisher_degenerate_counterexample :
    (∀ e ∈ degenerateRows, e.has_opinion = false)
    ∧ fisher_test degenerateRows = none := by
  decide

/-- C5 as amended: when no output row has `has_opinion` true (a zero column
of the 2×2 table), `fisher_test` does not report degenerate numeric results:
the crosstab drops the unobserved category, the table is not of shape (2, 2),
and `scipy.stats.fisher_exact` raises, modelled as `none`. -/
theorem fisher_zero_column_raises (rows : List Entry)
    (h : ∀ e ∈ rows, e.has_opinion = false) :
    fisher_test rows = none := by
  have hct : (rows.map fun e => e.has_opinion).contains true = false := by
    simp only [List.contains, List.elem_eq_mem, decide_eq_false_iff_not,
      List.mem_map]
    rintro ⟨e, he, hop⟩
    exact absurd (h e he) (by rw [hop]; decide)
  unfold fisher_test observedVals
  rw [hct]
  cases hcf : (rows.map fun e => e.has_opinion).contains false <;>
    simp

/-- Witness for the amended C5: the degenerate row set makes the test fail. -/
theorem fisher_zero_column_raises_witness :
    fisher_test degenerateRows = none :=
  fisher_zero_column_raises degenerateRows (by decide)

/-- C7: a selected hearing with no matching row in the announced roster set,
the reported roster set, or the opinions set makes the whole run fail fast:
`create_dataframe` propagates the error and produces no dataframe at all
(no silent skip, no partial output). -/
theorem missing_hearing_aborts (ws : List WebcastRow) (anns : List AnnouncedRow)
    (reps : List ReportedRow) (qs : List QuestionRow) (ops : List OpinionRow)
    (w : WebcastRow) (hw : w ∈ ws)
    (h : (anns.filter fun r => r.webcast_id == w.webcast_id) = []
      ∨ (reps.filter fun r => r.webcast_id == w.webcast_id) = []
      ∨ (ops.filter fun r => r.webcast_id == w.webcast_id) = []) :
    create_dataframe ws anns reps qs ops = none :=
  create_dataframe_fails hw (processHearing_none h)

/-- Witness for C7: selecting an unknown hearing id aborts the run. -/
theorem missing_hearing_aborts_witness :
    create_dataframe [{ webcast_id := "H9" }] sampleAnnounced sampleReported
      sampleQuestions sampleOpinions = none :=
  missing_hearing_aborts [{ webcast_id := "H9" }] sampleAnnounced sampleReported
    sampleQuestions sampleOpinions { webcast_id := "H9" }
    (List.mem_cons_self _ _) (Or.inl (by decide))

/-- Questions of the hearing in which participant "A" appears only inside a
question's `text` field, never as a `name` value. -/
def textOnlyQuestions : List QuestionRow :=
  [{ webcast_id := "H1", name := "B", text := "A", lang := "en" }]

/-- Announced roster for the crash scenario: judges "A" and "B". -/
def textOnlyAnnounced : List AnnouncedRow :=
  [{ webcast_id := "H1", judges := [("1", "A"), ("2", "B")], listed := "A,B" }]

/-- Reported roster for the crash scenario: the same judges "A" and "B". -/
def textOnlyReported : List ReportedRow :=
  [{ webcast_id := "H1", listed := "A,B", hearing_date := ⟨0⟩ }]

/-- Opinions row for the crash scenario. -/
def textOnlyOpinions : List OpinionRow :=
  [{ webcast_id := "H1", case_id := "C1", hearing_date := ⟨0⟩,
     opinions := [("B", ["OPINION"])] }]

/-- C9: `create_dataframe` is not total even when every selected hearing has
matching announced, reported and opinions rows: here every selection is
non-empty, yet participant "A" occurs in the `text` cell of a question row
and never as a `name` value, so the membership test is true while the
`name`-filtered selection is empty, the positional lookup raises, and the
run produces no dataframe. -/
theorem values_membership_crashes_run :
    (textOnlyAnnounced.filter fun r => r.webcast_id == "H1") ≠ []
    ∧ (textOnlyReported.filter fun r => r.webcast_id == "H1") ≠ []
    ∧ (textOnlyOpinions.filter fun r => r.webcast_id == "H1") ≠ []
    ∧ ((textOnlyQuestions.filter fun r => r.webcast_id == "H1").any
        fun r => r.name == "A" || r.text == "A" || r.lang == "A") = true
    ∧ ((textOnlyQuestions.filter fun r => r.webcast_id == "H1").filter
        fun r => r.name == "A") = []
    ∧ create_dataframe [{ webcast_id := "H1" }] textOnlyAnnounced textOnlyReported
        textOnlyQuestions textOnlyOpinions = none := by
  decide

/-- C10: duplicate roster or opinion rows for a hearing do not make the
hearing iteration fail by themselves: the iteration behaves exactly as if
only the first matching announced row, reported row and opinions row (in
record order) were present, ignoring every later duplicate. -/
theorem duplicate_rows_first_match_wins (anns : List AnnouncedRow)
    (reps : List ReportedRow) (qs : List QuestionRow) (ops : List OpinionRow)
    (w : String) (a : AnnouncedRow) (rr : ReportedRow) (orow : OpinionRow)
    (ha : (anns.filter fun r => r.webcast_id == w).head? = some a)
    (hr : (reps.filter fun r => r.webcast_id == w).head? = some rr)
    (ho : (ops.filter fun r => r.webcast_id == w).head? = some orow) :
    processHearing anns reps qs ops w = processHearing [a] [rr] qs [orow] w := by
  have hpa : (a.webcast_id == w) = true :=
    (List.mem_filter.mp (List.mem_of_mem_head? (Option.mem_def.mpr ha))).2
  have hpr : (rr.webcast_id == w) = true :=
    (List.mem_filter.mp (List.mem_of_mem_head? (Option.mem_def.mpr hr))).2
  have hpo : (orow.webcast_id == w) = true :=
    (List.mem_filter.mp (List.mem_of_mem_head? (Option.mem_def.mpr ho))).2
  unfold processHearing
  rw [ha, hr, ho]
  simp [List.filter, hpa, hpr, hpo]

/-- Announced roster with two rows for hearing "H1". -/
def dupAnnounced : List AnnouncedRow :=
  [{ webcast_id := "H1", judges := [("1", "A")], listed := "A" },
   { webcast_id := "H1", judges := [("1", "Z")], listed := "Z" }]

/-- Reported roster with two rows for hearing "H1". -/
def dupReported : List ReportedRow :=
  [{ webcast_id := "H1", listed := "A", hearing_date := ⟨0⟩ },
   { webcast_id := "H1", listed := "Z", hearing_date := ⟨1⟩ }]

/-- Opinions set with two rows for hearing "H1". -/
def dupOpinions : List OpinionRow :=
  [{ webcast_id := "H1", case_id := "C1", hearing_date := ⟨0⟩,
     opinions := [("A", ["OPINION"])] },
   { webcast_id := "H1", case_id := "C2", hearing_date := ⟨0⟩, opinions := [] }]

/-- Witness for C10: with duplicated rows in all three sets the hearing
iteration equals the iteration on the first matching rows alone. -/
theorem duplicate_rows_first_match_wins_witness :
    processHearing dupAnnounced dupReported [] dupOpinions "H1"
      = processHearing
          [{ webcast_id := "H1", judges := [("1", "A")], listed := "A" }]
          [{ webcast_id := "H1", listed := "A", hearing_date := ⟨0⟩ }] []
          [{ webcast_id := "H1", case_id := "C1", hearing_date := ⟨0⟩,
             opinions := [("A", ["OPINION"])] }] "H1" :=
  duplicate_rows_first_match_wins dupAnnounced dupReported [] dupOpinions "H1"
    { webcast_id := "H1", judges := [("1", "A")], listed := "A" }
    { webcast_id := "H1", listed := "A", hearing_date := ⟨0⟩ }
    { webcast_id := "H1", case_id := "C1", hearing_date := ⟨0⟩,
      opinions := [("A", ["OPINION"])] }
    (by decide) (by decide) (by decide)

/-- C8: the loader filters only the opinions record set, retaining exactly
the rows whose `webcast_id` is among the selected hearings' ids; the
webcasts and questions sets are returned as given, and the announced and
reported sets keep their full row sequences (normalisation adds the `listed`
column and converts the date, but drops no row). -/
theorem loader_filters_only_opinions (sel : List WebcastRow)
    (qsr : List QuestionRow) (anns : List AnnouncedRaw) (reps : List ReportedRaw)
    (ops : List OpinionRaw) :
    (load_json_files sel qsr anns reps ops).1 = sel
    ∧ (load_json_files sel qsr anns reps ops).2.2.2.1 = qsr
    ∧ ((load_json_files sel qsr anns reps ops).2.1).map
        (fun a => (a.webcast_id, a.judges))
        = anns.map (fun a => (a.webcast_id, a.judges))
    ∧ ((load_json_files sel qsr anns reps ops).2.2.1).map
        (fun r => (r.webcast_id, r.listed, r.hearing_date.ms))
        = reps.map (fun r => (r.webcast_id, r.listed, r.hearing_date))
    ∧ ((load_json_files sel qsr anns reps ops).2.2.2.2).map
        (fun o => (o.webcast_id, o.case_id, o.hearing_date.ms, o.opinions))
        = (ops.filter fun o =>
            (sel.map fun w => w.webcast_id).contains o.webcast_id).map
          (fun o => (o.webcast_id, o.case_id, o.hearing_date, o.opinions)) := by
  refine ⟨rfl, rfl, ?_, ?_, ?_⟩
  · simp [load_json_files, List.map_map, Function.comp]
  · simp [load_json_files, List.map_map, Function.comp]
  · simp only [load_json_files]
    rw [List.filter_map, List.map_map]
    congr 1
